import Mathlib

/-!
Shallow embedding of the Trip-Planner itinerary-optimization core
(`src/server/utils/optimizer.js` and the graph construction part of
`src/server/utils/graph.js`), together with theorems settling the
specification claims about it.

Conventions of the embedding:
* JavaScript numbers are embedded as `Rat` in the optimizer layer, where
  all arithmetic the claims depend on is exact; the floating-point
  trigonometry of the haversine distance is embedded separately over `ℝ`
  (section `Geo` below).
* A JavaScript field that may be `undefined` is embedded as an `Option`.
* JavaScript falsiness of numbers (`x || d` yields `d` for `0`, `NaN`,
  `undefined`) is embedded by `jsOr` / `truthy` below.
* Code that can throw (out-of-range array length, property access on
  `undefined`) is embedded in `Except String`.
-/

attribute [local semireducible] Rat.add Rat.mul Rat.inv Rat.sub Rat.ofScientific

deriving instance DecidableEq for Except

namespace TripPlanner

/-- Coordinates of a POI as consumed by the optimizer layer.  The optimizer
never inspects them itself; it only passes them to the distance metric. -/
structure Loc where
  lat : Rat
  lng : Rat
deriving DecidableEq, Repr

/-- A point of interest record.  `rating` and `relevanceScore` are `none`
when the field is absent (or, for `rating`, not parseable as a number);
`travelTimeToNext`, `nextNodeScore`, `importance` and `timeRequired` are the
annotation fields written by the optimizer and are `none` on fresh input. -/
structure POI where
  id : String
  name : String
  description : Option String := none
  location : Loc
  visitDuration : Rat
  rating : Option Rat := none
  relevanceScore : Option Rat := none
  travelTimeToNext : Option Rat := none
  nextNodeScore : Option Rat := none
  importance : Option Rat := none
  timeRequired : Option Rat := none
deriving DecidableEq, Repr

/-- An adjacency-list entry, as pushed by `buildGraph` in `graph.js`. -/
structure Edge where
  nodeId : String
  distance : Rat
  travelTime : Rat
deriving DecidableEq, Repr

/-- Graph representation `{ nodes, adjacencyList }`.  JavaScript objects
keyed by POI id are embedded as association lists in insertion order. -/
structure Graph where
  nodes : List (String × POI)
  adjacencyList : List (String × List Edge)
deriving DecidableEq, Repr

/-- Lookup `graph.nodes[k]`; `none` embeds `undefined`. -/
def Graph.getNode (g : Graph) (k : String) : Option POI :=
  (g.nodes.find? (fun kv => kv.1 = k)).map (·.2)

/-- Lookup `graph.adjacencyList[k]`.  Every use in the embedded code is at a
key that is present; an absent key yields `[]` here (the JS code would have
thrown before ever iterating such a list). -/
def Graph.adjOf (g : Graph) (k : String) : List Edge :=
  ((g.adjacencyList.find? (fun kv => kv.1 = k)).map (·.2)).getD []

/-- JavaScript truthiness of an optional number: `0`, `NaN` and
`undefined` are falsy; every other number is truthy. -/
def truthy : Option Rat → Bool
  | none => false
  | some r => r ≠ 0

/-- JavaScript `x || d` on an optional number. -/
def jsOr (x : Option Rat) (d : Rat) : Rat :=
  match x with
  | none => d
  | some r => if r = 0 then d else r

/-- JavaScript `s || d` on an optional string (the empty string is falsy). -/
def jsOrStr (x : Option String) (d : String) : String :=
  match x with
  | none => d
  | some s => if s = "" then d else s

/-- The expression `parseFloat(poi.rating) || 4.0` used at
optimizer.js:94, 344, 402 and 589: an absent or unparseable rating (and a
rating of `0`, which is falsy) is replaced by the default `4.0`. -/
def ratingOrDefault (rating : Option Rat) : Rat :=
  jsOr rating 4

/-- Substring occurrence on character lists: the needle occurs at some
position of the haystack. -/
def hasSubList (needle : List Char) : List Char → Bool
  | [] => needle.isEmpty
  | c :: rest => needle.isPrefixOf (c :: rest) || hasSubList needle rest

/-- Case-insensitive substring test embedding `hay.toLowerCase().includes(kw)`
(the keyword tables are already lowercase; lowercasing is applied per
character, which agrees with `String.toLower`). -/
def strIncludes (hay kw : String) : Bool :=
  hasSubList kw.toList (hay.toList.map Char.toLower)

/-- Keyword table of `calculatePOIRelevance` (optimizer.js:140-149),
including the fallback `keywords[tripType] || keywords['Historical']`. -/
def keywordTable (tripType : String) : List String :=
  if tripType = "Historical" then
    ["historic", "ancient", "heritage", "museum", "monument", "palace", "fort", "ruins", "archaeology"]
  else if tripType = "Religious" then
    ["temple", "church", "mosque", "shrine", "holy", "sacred", "worship", "pilgrimage", "spiritual"]
  else if tripType = "Nature" then
    ["park", "garden", "mountain", "lake", "river", "forest", "beach", "waterfall", "wildlife", "scenic"]
  else if tripType = "Adventure" then
    ["trek", "hike", "climb", "adventure", "sport", "rafting", "camping", "zipline", "safari", "outdoor"]
  else if tripType = "Romantic" then
    ["sunset", "view", "romantic", "couple", "garden", "scenic", "restaurant", "retreat", "peaceful"]
  else
    ["historic", "ancient", "heritage", "museum", "monument", "palace", "fort", "ruins", "archaeology"]

/-- Embedding of `calculatePOIRelevance` (optimizer.js:131-158): base score 1,
then +2 per keyword contained in the (lowercased) name and +1 per keyword
contained in the description. -/
def calculatePOIRelevance (poi : POI) (tripType : String) : Rat :=
  let name := poi.name
  let description := (poi.description).getD ""
  (keywordTable tripType).foldl
    (fun score keyword =>
      let score := if strIncludes name keyword then score + 2 else score
      if strIncludes description keyword then score + 1 else score)
    1

/-- Weight profile for a trip type. -/
structure Weights where
  travelTime : Rat
  relevance : Rat
  rating : Rat
deriving DecidableEq, Repr

/-- Embedding of `getTripTypeWeights` (optimizer.js:167-210). -/
def getTripTypeWeights (tripType : String) : Weights :=
  if tripType = "Historical" then ⟨0.4, 0.5, 0.1⟩
  else if tripType = "Religious" then ⟨0.3, 0.6, 0.1⟩
  else if tripType = "Nature" then ⟨0.5, 0.3, 0.2⟩
  else if tripType = "Adventure" then ⟨0.3, 0.5, 0.2⟩
  else if tripType = "Romantic" then ⟨0.4, 0.3, 0.3⟩
  else ⟨0.6, 0.3, 0.1⟩

/-- The pattern `poi.relevanceScore || calculatePOIRelevance(poi, tripType)`
(optimizer.js:401 and 586): a present, nonzero precomputed relevance score is
used verbatim, otherwise the keyword scorer runs. -/
def effRelevance (poi : POI) (tripType : String) : Rat :=
  jsOr poi.relevanceScore (calculatePOIRelevance poi tripType)

/-- The two-step relevance computation of `findBestNextNode`
(optimizer.js:338-341): `let r = poi.relevanceScore || 1;
if (!poi.relevanceScore) r = calculatePOIRelevance(poi, tripType)`. -/
def nextNodeRelevance (poi : POI) (tripType : String) : Rat :=
  let relevanceScore := jsOr poi.relevanceScore 1
  if ¬ truthy poi.relevanceScore then calculatePOIRelevance poi tripType
  else relevanceScore

/-- The edge record pushed by `buildGraph` (graph.js:576-584) for the ordered
pair `(p1, p2)`, given the distance metric `dist`.  In the source the metric
is the floating-point haversine `calculateDistance` (embedded over `ℝ` in
section `Geo`); the optimizer-layer claims hold for every metric, so it is a
parameter here.  `calculateTravelTime` divides by the default speed 30. -/
def mkEdgeQ (dist : Loc → Loc → Rat) (p1 p2 : POI) : Edge :=
  { nodeId := p2.id
    distance := dist p1.location p2.location
    travelTime := dist p1.location p2.location / 30 }

/-- Embedding of `buildGraph` (graph.js:560-589): every POI becomes a node
keyed by its id, and the adjacency list of `p1` holds an edge to every other
POI, in input order.  The source inserts into JS objects keyed by id; for
pairwise-distinct ids (the regime of every claim about the graph) the
resulting key order and contents are exactly these association lists. -/
def buildGraph (dist : Loc → Loc → Rat) (pois : List POI) : Graph :=
  { nodes := pois.map (fun p => (p.id, p))
    adjacencyList := pois.map (fun p1 =>
      (p1.id, (pois.filter (fun p2 => p1.id ≠ p2.id)).map (fun p2 => mkEdgeQ dist p1 p2))) }

/-- Result record of `findBestNextNode` (optimizer.js:361):
`{ nextNode, travelTime, score }`.  `score = none` embeds the initial
`-Infinity`, which survives to the result exactly when no node was found. -/
structure NextNodeResult where
  nextNode : Option String
  travelTime : Rat
  score : Option Rat
deriving DecidableEq, Repr

/-- The composite score a candidate next POI receives in `findBestNextNode`
(optimizer.js:333-351): weighted travel-time cost, normalized relevance and
normalized rating. -/
def nextNodeScoreOf (weights : Weights) (travelTime : Rat) (poi : POI)
    (tripType : String) : Rat :=
  let travelTimeCost : Rat := 1 / (1 + travelTime)
  let relevanceScore := nextNodeRelevance poi tripType
  let rating := ratingOrDefault poi.rating
  let ratingFactor := rating / 5
  weights.travelTime * travelTimeCost +
    weights.relevance * (relevanceScore / 10) +
    weights.rating * ratingFactor

/-- Body of the `forEach` of `findBestNextNode` (optimizer.js:325-359).
The accumulator is `none` while `bestNode` is still `null` /
`bestScore = -Infinity`, and `some (bestNode, bestScore, bestTravelTime)`
afterwards; any finite score beats `-Infinity`. -/
def nextNodeStep (g : Graph) (visited : List String) (tripType : String)
    (weights : Weights) (acc : Option (String × Rat × Rat)) (neighbor : Edge) :
    Option (String × Rat × Rat) :=
  if visited.contains neighbor.nodeId then acc
  else
    match g.getNode neighbor.nodeId with
    | none => acc
    | some poi =>
      let score := nextNodeScoreOf weights neighbor.travelTime poi tripType
      match acc with
      | none => some (neighbor.nodeId, score, neighbor.travelTime)
      | some (bestNode, bestScore, bestTravelTime) =>
        if score > bestScore then some (neighbor.nodeId, score, neighbor.travelTime)
        else some (bestNode, bestScore, bestTravelTime)

/-- Embedding of `findBestNextNode` (optimizer.js:316-362). -/
def findBestNextNode (g : Graph) (currentNode : String) (visited : List String)
    (tripType : String) : NextNodeResult :=
  let weights := getTripTypeWeights tripType
  match (g.adjOf currentNode).foldl (nextNodeStep g visited tripType weights) none with
  | none => { nextNode := none, travelTime := 0, score := none }
  | some (bestNode, bestScore, bestTravelTime) =>
    { nextNode := some bestNode, travelTime := bestTravelTime, score := some bestScore }

/-- The in-place writes `tour[tour.length-1].travelTimeToNext = travelTime`
and `tour[tour.length-1].nextNodeScore = score` (optimizer.js:287-288),
embedded as an update of the last list element. -/
def annotateLast : List POI → Rat → Option Rat → List POI
  | [], _, _ => []
  | [p], t, s => [{ p with travelTimeToNext := some t, nextNodeScore := s }]
  | p :: q :: rest, t, s => p :: annotateLast (q :: rest) t s

/-- The `while (visited.size < nodes.length)` loop of `nearestNeighborTour`
(optimizer.js:281-301).  Each iteration adds one unvisited node, so
`fuel = numNodes` always suffices; the fuel-exhausted branch is unreachable
from the wrapper below. -/
def nnGo (g : Graph) (tripType : String) (numNodes : Nat) :
    Nat → List String → List POI → String → List POI
  | 0, _, tour, _ => tour
  | fuel + 1, visited, tour, currentNode =>
    if visited.length < numNodes then
      match findBestNextNode g currentNode visited tripType with
      | ⟨some nextNode, travelTime, score⟩ =>
        match g.getNode nextNode with
        | some poi =>
          nnGo g tripType numNodes fuel (visited ++ [nextNode])
            (annotateLast tour travelTime score ++ [poi]) nextNode
        | none => annotateLast tour travelTime score
      | ⟨none, _, _⟩ => tour
    else tour

/-- Embedding of `nearestNeighborTour` (optimizer.js:266-304).  The start is
`startNodeId || nodes[0]`; if the chosen start id is not a key of the graph
the source throws on `graph.nodes[start].name` (optimizer.js:278), embedded
as an error. -/
def nearestNeighborTour (g : Graph) (startNodeId : Option String)
    (tripType : String) : Except String (List POI) :=
  let nodes := g.nodes.map (·.1)
  match nodes with
  | [] => .ok []
  | n0 :: _ =>
    let start := jsOrStr startNodeId n0
    match g.getNode start with
    | none => .error "TypeError: cannot read name of undefined start node"
    | some startPoi => .ok (nnGo g tripType nodes.length nodes.length [start] [startPoi] start)

/-- Embedding of `calculateTotalTime` (optimizer.js:241-255): every
`visitDuration` plus every `travelTimeToNext` except the last element's
(a falsy `travelTimeToNext` contributes 0 either way). -/
def calculateTotalTime : List POI → Rat
  | [] => 0
  | [p] => p.visitDuration
  | p :: q :: rest => p.visitDuration + (p.travelTimeToNext).getD 0 + calculateTotalTime (q :: rest)

/-- The annotation writes `poi.importance = importance` and
`poi.timeRequired = poiTime` performed on each tour POI by the first pass of
`organizeByDays` (optimizer.js:398-407). -/
def annotatePOI (tripType : String) (poi : POI) : POI :=
  let poiTime := poi.visitDuration + (poi.travelTimeToNext).getD 0
  let relevanceScore := effRelevance poi tripType
  let rating := ratingOrDefault poi.rating
  let importance := relevanceScore * 0.7 + rating * 0.3
  { poi with importance := some importance, timeRequired := some poiTime }

/-- Body of the first-pass loop of `organizeByDays` (optimizer.js:394-426).
State: (closed day buckets, current day, current day time). -/
def firstPassStep (tripType : String) (avgTimePerDay : Rat)
    (st : List (List POI) × List POI × Rat) (poi : POI) :
    List (List POI) × List POI × Rat :=
  let done := st.1
  let currentDay := st.2.1
  let currentDayTime := st.2.2
  let poiTime := poi.visitDuration + (poi.travelTimeToNext).getD 0
  let importance := effRelevance poi tripType * 0.7 + ratingOrDefault poi.rating * 0.3
  let poi' := annotatePOI tripType poi
  let importanceFactor := min 1.3 (1 + importance / 10)
  let adjustedBudget := avgTimePerDay * importanceFactor
  if currentDayTime + poiTime > adjustedBudget ∧ currentDay.length > 0 then
    (done ++ [currentDay], [poi'], poiTime)
  else
    (done, currentDay ++ [poi'], currentDayTime + poiTime)

/-- First pass of `organizeByDays` including the final flush of the open
day bucket (optimizer.js:389-432). -/
def firstPass (tripType : String) (avgTimePerDay : Rat) (tour : List POI) :
    List (List POI) :=
  let st := tour.foldl (firstPassStep tripType avgTimePerDay) ([], [], 0)
  st.1 ++ (if st.2.1.isEmpty then [] else [st.2.1])

/-- The `while (dailyItineraries.length < targetDays) push([])` padding of
`balanceDays` (optimizer.js:455-457). -/
def padTo (bs : List (List POI)) (target : Int) : List (List POI) :=
  bs ++ List.replicate (target - (bs.length : Int)).toNat []

/-- The double loop of `balanceDays` (optimizer.js:461-475) choosing the pair
of days with the smallest combined POI count, first-encountered minimum
winning (strict `<`), starting from the pair (0, 1). -/
def findMergePair (bs : List (List POI)) : Nat × Nat :=
  let n := bs.length
  let pairs := (List.range n).flatMap (fun i =>
    ((List.range n).filter (fun j => i < j)).map (fun j => (i, j)))
  (pairs.foldl
    (fun (acc : (Nat × Nat) × Nat) p =>
      let totalPOIs := (bs.getD p.1 []).length + (bs.getD p.2 []).length
      if totalPOIs < acc.2 then (p, totalPOIs) else acc)
    ((0, 1), (bs.getD 0 []).length + (bs.getD 1 []).length)).1

/-- One merge of `balanceDays` (optimizer.js:477-479): bucket `i` absorbs
bucket `j`, and bucket `j` is spliced out. -/
def mergeAt (bs : List (List POI)) (i j : Nat) : List (List POI) :=
  (bs.set i ((bs.getD i []) ++ (bs.getD j []))).eraseIdx j

/-- The `while (dailyItineraries.length > targetDays)` merge loop of
`balanceDays` (optimizer.js:460-482), structured on a fuel argument for
structural recursion.  With fewer than two days remaining the source reads
`dailyItineraries[1].length` on `undefined` and throws.  Each merge shortens
the list by one, so the fuel supplied by `mergeLoop` below never runs out
(proved with the theorems further down). -/
def mergeGo (target : Int) : Nat → List (List POI) → Except String (List (List POI))
  | 0, _ => .error "unreachable: merge fuel exhausted"
  | fuel + 1, bs =>
    if (bs.length : Int) ≤ target then .ok bs
    else if 2 ≤ bs.length then
      mergeGo target fuel (mergeAt bs (findMergePair bs).1 (findMergePair bs).2)
    else .error "TypeError: cannot read length of undefined"

/-- The merge loop of `balanceDays` run with sufficient fuel. -/
def mergeLoop (bs : List (List POI)) (target : Int) : Except String (List (List POI)) :=
  mergeGo target (bs.length + 1) bs

/-- Day duration as computed by the `reduce` at optimizer.js:501-503. -/
def dayTime (day : List POI) : Rat :=
  day.foldl (fun total poi => total + poi.visitDuration + (poi.travelTimeToNext).getD 0) 0

/-- The inner scan for the least-important POI of an overloaded day
(optimizer.js:518-527); first-encountered minimum wins (strict `<`),
`importance || 1` being the JS read with default. -/
def leastImportantIndex (day : List POI) : Nat :=
  match day with
  | [] => 0
  | d0 :: rest =>
    (rest.enum.foldl
      (fun (acc : Nat × Rat) x =>
        let importance := jsOr x.2.importance 1
        if importance < acc.2 then (x.1 + 1, importance) else acc)
      (0, jsOr d0.importance 1)).1

/-- The scan for the most underloaded day (optimizer.js:529-540): among
indices `j ≠ i` with time below `0.8 * avg`, the first one of minimal time. -/
def mostUnderloadedIndex (dayTimes : List Rat) (avgTimePerDay : Rat) (i : Nat) :
    Option Nat :=
  (dayTimes.enum.foldl
    (fun (acc : Option (Nat × Rat)) x =>
      if x.1 ≠ i ∧ x.2 < avgTimePerDay * 0.8 then
        match acc with
        | none => some x
        | some (bj, bt) => if x.2 < bt then some x else some (bj, bt)
      else acc)
    none).map (·.1)

/-- Body of the index loop of `balanceUnevenDays` (optimizer.js:511-558),
acting on the pair (day buckets, mutable `dayTimes` array). -/
def buStep (avgTimePerDay : Rat) (st : List (List POI) × List Rat) (i : Nat) :
    List (List POI) × List Rat :=
  let bs := st.1
  let ts := st.2
  let day := bs.getD i []
  let t := ts.getD i 0
  if t > avgTimePerDay * 1.3 ∧ day.length > 1 then
    let k := leastImportantIndex day
    match mostUnderloadedIndex ts avgTimePerDay i with
    | none => st
    | some j =>
      match day.drop k with
      | [] => st
      | poiToMove :: restAfter =>
        let poiTime := poiToMove.visitDuration + (poiToMove.travelTimeToNext).getD 0
        ((bs.set i (day.take k ++ restAfter)).set j ((bs.getD j []) ++ [poiToMove]),
         (ts.set i (t - poiTime)).set j ((ts.getD j 0) + poiTime))
  else st

/-- Embedding of `balanceUnevenDays` (optimizer.js:493-559).  The average
POI count is only logged by the source and is omitted here. -/
def balanceUnevenDays (bs : List (List POI)) : List (List POI) :=
  if bs.length ≤ 1 then bs
  else
    let dayTimes := bs.map dayTime
    let totalTime := dayTimes.foldl (· + ·) 0
    let avgTimePerDay := totalTime / (bs.length : Rat)
    ((List.range bs.length).foldl (buStep avgTimePerDay) (bs, dayTimes)).1

/-- Embedding of `balanceDays` (optimizer.js:453-486): pad with empty days,
merge surplus days, then `balanceUnevenDays`; a failure of the merge loop
propagates. -/
def balanceDays (bs : List (List POI)) (target : Int) : Except String (List (List POI)) :=
  match mergeLoop (padTo bs target) target with
  | .error e => .error e
  | .ok merged => .ok (balanceUnevenDays merged)

/-- Embedding of `organizeByDays` (optimizer.js:374-444).  An empty tour
yields `Array(days).fill([])`, which throws for a negative length. -/
def organizeByDays (tour : List POI) (days : Int) (tripType : String := "Historical") :
    Except String (List (List POI)) :=
  if tour.isEmpty then
    if 0 ≤ days then .ok (List.replicate days.toNat [])
    else .error "RangeError: invalid array length"
  else
    let totalTime := calculateTotalTime tour
    let avgTimePerDay := totalTime / (days : Rat)
    balanceDays (firstPass tripType avgTimePerDay tour) days

/-- Optimization metadata (optimizer.js:610-615). -/
structure Metadata where
  tripType : String
  startingPoint : String
  totalPOIs : Nat
  optimizationMethod : String
deriving DecidableEq, Repr

/-- Result of `optimizeTrip`: the empty-input branch (optimizer.js:577)
returns a bare array of buckets, every other branch returns the
`{ dailyItineraries, metadata }` object (optimizer.js:620-623). -/
inductive OptimizeResult where
  | bare (buckets : List (List POI))
  | full (dailyItineraries : List (List POI)) (metadata : Metadata)
deriving DecidableEq, Repr

/-- The start-node score of `optimizeTrip` (optimizer.js:584-593). -/
def startScore (tripType : String) (node : POI) : Rat :=
  let relevanceScore := effRelevance node tripType
  let rating := ratingOrDefault node.rating
  let weights := getTripTypeWeights tripType
  weights.relevance * (relevanceScore / 5) + weights.rating * (rating / 5)

/-- The start-node selection loop of `optimizeTrip` (optimizer.js:581-599):
starting from `(nodes[0], 0)`, keep the node with the strictly highest
`startScore`. -/
def bestStartNode (tripType : String) (n0 : POI) (nodes : List POI) : POI × Rat :=
  nodes.foldl
    (fun (acc : POI × Rat) node =>
      let score := startScore tripType node
      if score > acc.2 then (node, score) else acc)
    (n0, 0)

/-- Embedding of `optimizeTrip` (optimizer.js:569-624).  Note that the source
calls `organizeByDays(tour, days)` at optimizer.js:607 without forwarding
`tripType`, so the partition step runs with the default `"Historical"`. -/
def optimizeTrip (g : Graph) (days : Int) (tripType : String := "Historical") :
    Except String OptimizeResult :=
  let nodes := g.nodes.map (·.2)
  match nodes with
  | [] =>
    if 0 ≤ days then .ok (.bare (List.replicate days.toNat []))
    else .error "RangeError: invalid array length"
  | n0 :: _ =>
    let best := bestStartNode tripType n0 nodes
    match nearestNeighborTour g (some best.1.id) tripType with
    | .error e => .error e
    | .ok tour =>
      match organizeByDays tour days "Historical" with
      | .error e => .error e
      | .ok dailyItineraries =>
        .ok (.full dailyItineraries
          { tripType := tripType
            startingPoint := best.1.name
            totalPOIs := tour.length
            optimizationMethod := "Enhanced Nearest Neighbor with Dijkstra" })

/-- All POI records appearing in an optimization result. -/
def outputPOIs : Except String OptimizeResult → List POI
  | .ok (.bare bs) => bs.flatten
  | .ok (.full bs _) => bs.flatten
  | .error _ => []

/-- The non-annotation fields of a POI: everything except
`travelTimeToNext`, `nextNodeScore`, `importance` and `timeRequired`. -/
def coreFields (p : POI) :
    String × String × Option String × Loc × Rat × Option Rat × Option Rat :=
  (p.id, p.name, p.description, p.location, p.visitDuration, p.rating, p.relevanceScore)

namespace Geo

/-- A coordinate pair as consumed by `calculateDistance` (graph.js).  The
floating-point numbers of the source are embedded as real numbers; an
invalid argument (`null`/missing/non-numeric coordinates, graph.js:526-532)
is embedded as `none`. -/
structure Point where
  lat : ℝ
  lng : ℝ

/-- JavaScript `Math.atan2(y, x)` over the reals (signed zeros and `NaN`
have no counterpart here). -/
noncomputable def atan2 (y x : ℝ) : ℝ :=
  if 0 < x then Real.arctan (y / x)
  else if x < 0 then
    (if 0 ≤ y then Real.arctan (y / x) + Real.pi else Real.arctan (y / x) - Real.pi)
  else
    (if 0 < y then Real.pi / 2 else if y < 0 then -(Real.pi / 2) else 0)

/-- The intermediate value `a` of the haversine formula (graph.js:536-539). -/
noncomputable def haversineA (p1 p2 : Point) : ℝ :=
  let dLat := (p2.lat - p1.lat) * Real.pi / 180
  let dLng := (p2.lng - p1.lng) * Real.pi / 180
  Real.sin (dLat / 2) * Real.sin (dLat / 2) +
    Real.cos (p1.lat * Real.pi / 180) * Real.cos (p2.lat * Real.pi / 180) *
      Real.sin (dLng / 2) * Real.sin (dLng / 2)

/-- Embedding of `calculateDistance` (graph.js:524-541): haversine distance
with Earth radius 6371 km, or the fixed 1 km fallback on invalid input. -/
noncomputable def calculateDistance (point1 point2 : Option Point) : ℝ :=
  match point1, point2 with
  | some p1, some p2 =>
    let a := haversineA p1 p2
    let c := 2 * atan2 (Real.sqrt a) (Real.sqrt (1 - a))
    6371 * c
  | _, _ => 1

/-- Embedding of `calculateTravelTime` (graph.js:549-552). -/
noncomputable def calculateTravelTime (point1 point2 : Option Point)
    (speedFactor : ℝ := 30) : ℝ :=
  calculateDistance point1 point2 / speedFactor

/-- POI as consumed by the graph builder layer. -/
structure GeoPOI where
  id : String
  location : Option Point

/-- An adjacency entry with real-valued weights. -/
structure EdgeR where
  nodeId : String
  distance : ℝ
  travelTime : ℝ

/-- The edge record `{ nodeId, distance, travelTime }` pushed by `buildGraph`
(graph.js:576-584) for the ordered pair `(p1, p2)`. -/
noncomputable def mkEdgeR (p1 p2 : GeoPOI) : EdgeR :=
  { nodeId := p2.id
    distance := calculateDistance p1.location p2.location
    travelTime := calculateTravelTime p1.location p2.location }

/-- Real-weighted graph. -/
structure GraphR where
  nodes : List (String × GeoPOI)
  adjacencyList : List (String × List EdgeR)

/-- Embedding of `buildGraph` (graph.js:560-589) with the source's actual
(haversine) weights: the adjacency list of `p1` holds `mkEdgeR p1 p2` for
every other POI `p2`. -/
noncomputable def buildGraphR (pois : List GeoPOI) : GraphR :=
  { nodes := pois.map (fun p => (p.id, p))
    adjacencyList := pois.map (fun p1 =>
      (p1.id, (pois.filter (fun p2 => p1.id ≠ p2.id)).map (fun p2 => mkEdgeR p1 p2))) }

end Geo

/-!
Concrete inputs used by the counterexamples and witnesses below.
-/

/-- A constant distance metric used for concrete evaluations (the
optimizer-layer theorems hold for every metric). -/
def demoDist : Loc → Loc → Rat := fun _ _ => 1

/-- A fixed coordinate pair for concrete POIs. -/
def demoLoc : Loc := ⟨0, 0⟩

/-- Tour POI with a long visit, low rating and low precomputed relevance. -/
def tourA : POI :=
  { id := "A", name := "A", location := demoLoc, visitDuration := 60,
    rating := some (1/2), relevanceScore := some (1/10) }

/-- Short-visit sibling of `tourA`. -/
def tourB : POI := { tourA with id := "B", name := "B", visitDuration := 10 }

/-- Short-visit sibling of `tourA`. -/
def tourC : POI := { tourA with id := "C", name := "C", visitDuration := 10 }

/-- Long-visit sibling of `tourA`. -/
def tourD : POI := { tourA with id := "D", name := "D", visitDuration := 50 }

/-- A four-stop tour whose day partition has bucket sizes 1, 2, 1, forcing
`balanceDays` to merge the two non-adjacent singleton buckets and
`balanceUnevenDays` to move a POI. -/
def demoTour : List POI := [tourA, tourB, tourC, tourD]

/-- A POI matching only Adventure keywords, with no precomputed relevance. -/
def advPoi : POI :=
  { id := "adv", name := "zipline safari trek", location := demoLoc,
    visitDuration := 2, rating := some 4 }

/-- A POI violating the `visitDuration > 0` input contract. -/
def negDurationPoi : POI :=
  { id := "X", name := "X", location := demoLoc, visitDuration := -1 }

/-- First of a pair of plain POIs. -/
def poiOne : POI := { id := "p1", name := "one", location := demoLoc, visitDuration := 2 }

/-- Second of a pair of plain POIs. -/
def poiTwo : POI := { id := "p2", name := "two", location := ⟨1, 1⟩, visitDuration := 3 }

/-- A POI carrying the precomputed relevance score 0 (falsy in JS) whose
name matches Historical keywords. -/
def zeroRelPoi : POI :=
  { id := "z", name := "historic fort", location := demoLoc,
    visitDuration := 1, relevanceScore := some 0 }

/-- A POI with a nonzero precomputed relevance score. -/
def someRelPoi : POI :=
  { id := "s", name := "somewhere", location := demoLoc,
    visitDuration := 1, relevanceScore := some (5/2) }

/-- A POI whose rating is absent. -/
def noRatingPoi : POI :=
  { id := "r", name := "unrated", location := demoLoc, visitDuration := 1 }

/-!
Theorems.  First the generic list/fold helpers, then per-component lemmas,
then the claim theorems with their witnesses and counterexamples.
-/

/-- Generic fold invariant preservation, used to track properties of the
accumulators of the source's loops. -/
theorem foldl_invariant {α β : Type _} (f : α → β → α) (P : α → Prop)
    (l : List β) (a : α) (ha : P a) (hf : ∀ a b, b ∈ l → P a → P (f a b)) :
    P (l.foldl f a) := by
  induction l generalizing a with
  | nil => exact ha
  | cons x xs ih =>
    exact ih (f a x) (hf a x (List.mem_cons_self x xs) ha)
      (fun a b hb => hf a b (List.mem_cons_of_mem x hb))

/-- The merge pair chosen by `findMergePair` is an ordered pair of valid
day indices whenever at least two days exist. -/
theorem findMergePair_lt (bs : List (List POI)) (h : 2 ≤ bs.length) :
    (findMergePair bs).1 < (findMergePair bs).2 ∧ (findMergePair bs).2 < bs.length := by
  unfold findMergePair
  have hmem : ∀ p : Nat × Nat,
      p ∈ (List.range bs.length).flatMap (fun i =>
        ((List.range bs.length).filter (fun j => i < j)).map (fun j => (i, j))) →
      p.1 < p.2 ∧ p.2 < bs.length := by
    intro p hp
    rcases List.mem_flatMap.mp hp with ⟨i, _, hp2⟩
    rcases List.mem_map.mp hp2 with ⟨j, hj, rfl⟩
    have hj2 := List.of_mem_filter hj
    exact ⟨by simpa using hj2, List.mem_range.mp (List.mem_filter.mp hj).1⟩
  exact foldl_invariant _
    (fun (acc : (Nat × Nat) × Nat) => acc.1.1 < acc.1.2 ∧ acc.1.2 < bs.length) _ _
    ⟨Nat.zero_lt_one, h⟩
    (fun acc p hp hacc => by
      dsimp only
      split
      · exact hmem p hp
      · exact hacc)

/-- Length of a merge result. -/
theorem mergeAt_length (bs : List (List POI)) (i j : Nat) (hj : j < bs.length) :
    (mergeAt bs i j).length = bs.length - 1 := by
  unfold mergeAt
  have h2 : j < (bs.set i ((bs.getD i []) ++ (bs.getD j []))).length := by simpa using hj
  have h3 := List.length_eraseIdx_add_one h2
  simp only [List.length_set] at h3
  omega

/-- The annotation of the day-partition pass does not change a POI's id. -/
theorem annotatePOI_id (tripType : String) (p : POI) :
    (annotatePOI tripType p).id = p.id := rfl

/-- The annotation of the day-partition pass does not change any
non-annotation field. -/
theorem annotatePOI_coreFields (tripType : String) (p : POI) :
    coreFields (annotatePOI tripType p) = coreFields p := rfl

/-- Unfolding of the first-pass fold of `organizeByDays`: the closed buckets
followed by the open bucket always hold exactly the annotated POIs processed
so far, in tour order. -/
theorem firstPass_foldl_flatten (tripType : String) (avgTimePerDay : Rat) :
    ∀ (tour : List POI) (done : List (List POI)) (cur : List POI) (t : Rat),
      (tour.foldl (firstPassStep tripType avgTimePerDay) (done, cur, t)).1.flatten ++
          (tour.foldl (firstPassStep tripType avgTimePerDay) (done, cur, t)).2.1
        = done.flatten ++ cur ++ tour.map (annotatePOI tripType) := by
  intro tour
  induction tour with
  | nil => intro done cur t; simp
  | cons p rest ih =>
    intro done cur t
    rw [List.foldl_cons]
    rcases hstep : firstPassStep tripType avgTimePerDay (done, cur, t) p with ⟨done1, cur1, t1⟩
    rw [ih done1 cur1 t1]
    unfold firstPassStep at hstep
    dsimp only at hstep
    split at hstep <;>
      (simp only [Prod.mk.injEq] at hstep
       obtain ⟨h1, h2, _⟩ := hstep
       subst h1
       subst h2
       simp)

/-- The first pass of `organizeByDays` partitions the annotated tour into
contiguous buckets: their in-order concatenation is exactly the annotated
tour. -/
theorem firstPass_flatten (tripType : String) (avgTimePerDay : Rat) (tour : List POI) :
    (firstPass tripType avgTimePerDay tour).flatten = tour.map (annotatePOI tripType) := by
  unfold firstPass
  dsimp only
  have h := firstPass_foldl_flatten tripType avgTimePerDay tour [] [] 0
  simp only [List.flatten_nil, List.nil_append] at h
  split
  · rename_i hemp
    rw [List.isEmpty_iff] at hemp
    rw [hemp] at h
    simpa using h
  · simpa using h

/-- Generic: `getD` at an index other than the one being set is unchanged. -/
theorem getD_set_ne {α : Type _} (l : List α) (d : α) (i j : Nat) (x : α)
    (h : i ≠ j) : (l.set i x).getD j d = l.getD j d := by
  induction l generalizing i j with
  | nil => simp
  | cons a l ih =>
    cases i with
    | zero =>
      cases j with
      | zero => exact absurd rfl h
      | succ j => simp
    | succ i =>
      cases j with
      | zero => simp
      | succ j => simpa using ih i j (by omega)

/-- Setting bucket `i` replaces its contribution to the flattened multiset. -/
theorem flatten_set (bs : List (List POI)) (i : Nat) (x : List POI)
    (h : i < bs.length) :
    ((bs.set i x).flatten : Multiset POI) + (bs.getD i [] : Multiset POI)
      = (bs.flatten : Multiset POI) + (x : Multiset POI) := by
  induction bs generalizing i with
  | nil => simp at h
  | cons d bs ih =>
    cases i with
    | zero =>
      simp only [List.set_cons_zero, List.getD_cons_zero, List.flatten_cons]
      rw [← Multiset.coe_add, ← Multiset.coe_add]
      abel
    | succ i =>
      simp only [List.set_cons_succ, List.getD_cons_succ, List.flatten_cons]
      rw [← Multiset.coe_add, ← Multiset.coe_add]
      have := ih i (by simpa using h)
      push_cast at this ⊢
      calc (d : Multiset POI) + ↑(bs.set i x).flatten + ↑(bs.getD i [])
          = ↑d + (↑(bs.set i x).flatten + ↑(bs.getD i [])) := by abel
        _ = ↑d + (↑bs.flatten + ↑x) := by rw [this]
        _ = ↑d + ↑bs.flatten + ↑x := by abel

/-- Erasing bucket `j` removes its contribution from the flattened multiset. -/
theorem flatten_eraseIdx (bs : List (List POI)) (j : Nat) (h : j < bs.length) :
    ((bs.eraseIdx j).flatten : Multiset POI) + (bs.getD j [] : Multiset POI)
      = (bs.flatten : Multiset POI) := by
  induction bs generalizing j with
  | nil => simp at h
  | cons d bs ih =>
    cases j with
    | zero =>
      simp only [List.eraseIdx_cons_zero, List.getD_cons_zero, List.flatten_cons]
      rw [← Multiset.coe_add]
      abel
    | succ j =>
      simp only [List.eraseIdx_cons_succ, List.getD_cons_succ, List.flatten_cons]
      rw [← Multiset.coe_add, ← Multiset.coe_add]
      have := ih j (by simpa using h)
      calc (d : Multiset POI) + ↑(bs.eraseIdx j).flatten + ↑(bs.getD j [])
          = ↑d + (↑(bs.eraseIdx j).flatten + ↑(bs.getD j [])) := by abel
        _ = ↑d + ↑bs.flatten := by rw [this]

/-- Merging two distinct buckets preserves the flattened multiset. -/
theorem mergeAt_flatten (bs : List (List POI)) (i j : Nat)
    (hij : i < j) (hj : j < bs.length) :
    ((mergeAt bs i j).flatten : Multiset POI) = (bs.flatten : Multiset POI) := by
  have hi : i < bs.length := lt_trans hij hj
  unfold mergeAt
  have h1 : j < (bs.set i ((bs.getD i []) ++ (bs.getD j []))).length := by simpa using hj
  have h2 := flatten_eraseIdx _ j h1
  rw [getD_set_ne bs [] i j _ (Nat.ne_of_lt hij)] at h2
  have h3 := flatten_set bs i ((bs.getD i []) ++ (bs.getD j [])) hi
  rw [← Multiset.coe_add] at h3
  have h4 : ((bs.set i ((bs.getD i []) ++ (bs.getD j []))).flatten : Multiset POI)
      = (bs.flatten : Multiset POI) + ↑(bs.getD j []) := by
    have h3' : ((bs.set i ((bs.getD i []) ++ (bs.getD j []))).flatten : Multiset POI)
        + ↑(bs.getD i [])
        = ((bs.flatten : Multiset POI) + ↑(bs.getD j [])) + ↑(bs.getD i []) := by
      rw [h3]; abel
    exact add_right_cancel h3'
  rw [h4] at h2
  exact add_right_cancel h2

/-- With enough fuel, a merge loop starting above the target reaches exactly
`target` buckets, succeeds, and preserves the flattened multiset. -/
theorem mergeGo_spec :
    ∀ (fuel : Nat) (bs : List (List POI)) (target : Int),
      1 ≤ target → target ≤ (bs.length : Int) → (bs.length : Int) < target + fuel →
      ∃ out, mergeGo target fuel bs = .ok out ∧ (out.length : Int) = target ∧
        (out.flatten : Multiset POI) = (bs.flatten : Multiset POI) := by
  intro fuel
  induction fuel with
  | zero => intro bs target h1 h2 h3; omega
  | succ fuel ih =>
    intro bs target h1 h2 h3
    rw [mergeGo]
    by_cases hle : (bs.length : Int) ≤ target
    · rw [if_pos hle]
      exact ⟨bs, rfl, by omega, rfl⟩
    · rw [if_neg hle]
      have h2' : 2 ≤ bs.length := by omega
      rw [if_pos h2']
      obtain ⟨hij, hjlen⟩ := findMergePair_lt bs h2'
      have hlen := mergeAt_length bs (findMergePair bs).1 (findMergePair bs).2 hjlen
      obtain ⟨out, hok, hl, hm⟩ :=
        ih (mergeAt bs (findMergePair bs).1 (findMergePair bs).2) target h1
          (by rw [hlen]; omega) (by rw [hlen]; omega)
      exact ⟨out, hok, hl, by rw [hm, mergeAt_flatten bs _ _ hij hjlen]⟩

/-- Whenever the merge loop succeeds it preserves the flattened multiset. -/
theorem mergeGo_ok_flatten :
    ∀ (fuel : Nat) (bs : List (List POI)) (target : Int) (out : List (List POI)),
      mergeGo target fuel bs = .ok out →
      (out.flatten : Multiset POI) = (bs.flatten : Multiset POI) := by
  intro fuel
  induction fuel with
  | zero => intro bs target out h; exact absurd h (by rw [mergeGo]; simp)
  | succ fuel ih =>
    intro bs target out h
    rw [mergeGo] at h
    by_cases hle : (bs.length : Int) ≤ target
    · rw [if_pos hle] at h
      cases h
      rfl
    · rw [if_neg hle] at h
      by_cases h2 : 2 ≤ bs.length
      · rw [if_pos h2] at h
        obtain ⟨hij, hjlen⟩ := findMergePair_lt bs h2
        exact (ih _ _ _ h).trans (mergeAt_flatten bs _ _ hij hjlen)
      · rw [if_neg h2] at h
        exact absurd h (by simp)

/-- Flattening a run of empty buckets yields nothing. -/
theorem flatten_replicate_nil (n : Nat) :
    (List.replicate n ([] : List POI)).flatten = [] := by
  induction n with
  | zero => rfl
  | succ n ih => simp [List.replicate_succ, ih]

/-- Padding with empty buckets does not change the flattened list. -/
theorem padTo_flatten (bs : List (List POI)) (target : Int) :
    (padTo bs target).flatten = bs.flatten := by
  unfold padTo
  rw [List.flatten_append, flatten_replicate_nil, List.append_nil]

/-- Padding reaches at least the target bucket count. -/
theorem padTo_length_ge (bs : List (List POI)) (target : Int) :
    target ≤ ((padTo bs target).length : Int) := by
  unfold padTo
  simp only [List.length_append, List.length_replicate]
  omega

/-- The underloaded-day scan only returns a valid index different from the
overloaded day. -/
theorem mostUnderloadedIndex_spec (ts : List Rat) (avg : Rat) (i j : Nat)
    (h : mostUnderloadedIndex ts avg i = some j) : j ≠ i ∧ j < ts.length := by
  unfold mostUnderloadedIndex at h
  obtain ⟨pair, hpair, rfl⟩ := Option.map_eq_some'.mp h
  have hinv := foldl_invariant
    (fun (acc : Option (Nat × Rat)) (x : Nat × Rat) =>
      if x.1 ≠ i ∧ x.2 < avg * 0.8 then
        match acc with
        | none => some x
        | some (bj, bt) => if x.2 < bt then some x else some (bj, bt)
      else acc)
    (fun (acc : Option (Nat × Rat)) => ∀ p, acc = some p → p.1 ≠ i ∧ p.1 < ts.length)
    ts.enum none (by simp)
    (fun acc x hx hacc => by
      dsimp only
      split
      case isTrue hcond =>
        rcases acc with _ | ⟨bj, bt⟩
        · rintro p hp
          cases hp
          exact ⟨hcond.1, List.fst_lt_of_mem_enum hx⟩
        · show ∀ p, (if x.2 < bt then some x else some (bj, bt)) = some p →
            p.1 ≠ i ∧ p.1 < ts.length
          split
          · rintro p hp
            cases hp
            exact ⟨hcond.1, List.fst_lt_of_mem_enum hx⟩
          · exact hacc
      case isFalse => exact hacc)
  exact hinv pair hpair

/-- The least-important-POI scan returns a valid index of a non-empty day. -/
theorem leastImportantIndex_lt (day : List POI) (h : day ≠ []) :
    leastImportantIndex day < day.length := by
  match day with
  | d0 :: rest =>
    unfold leastImportantIndex
    have hinv := foldl_invariant
      (fun (acc : Nat × Rat) (x : Nat × POI) =>
        let importance := jsOr x.2.importance 1
        if importance < acc.2 then (x.1 + 1, importance) else acc)
      (fun (acc : Nat × Rat) => acc.1 < (d0 :: rest).length)
      rest.enum (0, jsOr d0.importance 1) (by simp)
      (fun acc x hx hacc => by
        dsimp only
        split
        · have := List.fst_lt_of_mem_enum hx
          simp only [List.length_cons]
          omega
        · exact hacc)
    exact hinv

/-- One step of the rebalancing loop preserves the bucket count, the length
of the `dayTimes` array, and the flattened POI multiset. -/
theorem buStep_preserves (avg : Rat) (n : Nat) (M0 : Multiset POI)
    (st : List (List POI) × List Rat) (i : Nat)
    (hst : st.1.length = n ∧ st.2.length = n ∧ (st.1.flatten : Multiset POI) = M0) :
    (buStep avg st i).1.length = n ∧ (buStep avg st i).2.length = n ∧
      ((buStep avg st i).1.flatten : Multiset POI) = M0 := by
  obtain ⟨hb, ht, hm⟩ := hst
  unfold buStep
  dsimp only
  split
  case isFalse => exact ⟨hb, ht, hm⟩
  case isTrue hcond =>
    split
    case h_1 => exact ⟨hb, ht, hm⟩
    case h_2 j hj =>
      split
      case h_1 => exact ⟨hb, ht, hm⟩
      case h_2 poiToMove restAfter hdrop =>
        obtain ⟨hji, hjlen⟩ := mostUnderloadedIndex_spec st.2 avg i j hj
        have hi : i < st.1.length := by
          by_contra hni
          have hnil : st.1.getD i [] = [] :=
            List.getD_eq_default st.1 [] (by omega)
          rw [hnil] at hcond
          simp at hcond
        refine ⟨by simp [hb], by simp [ht], ?_⟩
        set day := st.1.getD i [] with hdayDef
        set k := leastImportantIndex day with hkDef
        have hsplit : day.take k ++ (poiToMove :: restAfter) = day := by
          rw [← hdrop]
          exact List.take_append_drop k day
        have hdaycoe : (day : Multiset POI)
            = ((day.take k ++ restAfter : List POI) : Multiset POI) + {poiToMove} := by
          conv_lhs => rw [← hsplit]
          rw [← Multiset.coe_add, ← Multiset.cons_coe, ← Multiset.coe_add,
            ← Multiset.singleton_add]
          abel
        have hjb : j < st.1.length := by omega
        have e1 := flatten_set st.1 i (day.take k ++ restAfter) hi
        have e2 := flatten_set (st.1.set i (day.take k ++ restAfter)) j
          ((st.1.getD j []) ++ [poiToMove]) (by simpa using hjb)
        rw [getD_set_ne st.1 [] i j _ (Ne.symm hji)] at e2
        have hco : (((st.1.getD j []) ++ [poiToMove] : List POI) : Multiset POI)
            = ((st.1.getD j [] : List POI) : Multiset POI) + {poiToMove} := by
          rw [← Multiset.coe_add, Multiset.coe_singleton]
        have e1' : ((st.1.set i (day.take k ++ restAfter)).flatten : Multiset POI)
            + {poiToMove} = (st.1.flatten : Multiset POI) := by
          have e1'' : (((st.1.set i (day.take k ++ restAfter)).flatten : Multiset POI)
                + {poiToMove}) + ↑(day.take k ++ restAfter)
              = (st.1.flatten : Multiset POI) + ↑(day.take k ++ restAfter) := by
            have := e1
            rw [hdaycoe] at this
            calc (((st.1.set i (day.take k ++ restAfter)).flatten : Multiset POI)
                  + {poiToMove}) + ↑(day.take k ++ restAfter)
                = ((st.1.set i (day.take k ++ restAfter)).flatten : Multiset POI)
                  + (↑(day.take k ++ restAfter) + {poiToMove}) := by abel
              _ = (st.1.flatten : Multiset POI) + ↑(day.take k ++ restAfter) := this
          exact add_right_cancel e1''
        have e2' : (((st.1.set i (day.take k ++ restAfter)).set j
              ((st.1.getD j []) ++ [poiToMove])).flatten : Multiset POI)
            = ((st.1.set i (day.take k ++ restAfter)).flatten : Multiset POI)
              + {poiToMove} := by
          have e2'' : (((st.1.set i (day.take k ++ restAfter)).set j
                ((st.1.getD j []) ++ [poiToMove])).flatten : Multiset POI)
                + ↑(st.1.getD j [])
              = (((st.1.set i (day.take k ++ restAfter)).flatten : Multiset POI)
                + {poiToMove}) + ↑(st.1.getD j []) := by
            rw [e2, hco]
            abel
          exact add_right_cancel e2''
        rw [e2', e1', hm]

/-- The rebalancing pass preserves the bucket count and the flattened POI
multiset. -/
theorem balanceUnevenDays_spec (bs : List (List POI)) :
    (balanceUnevenDays bs).length = bs.length ∧
      ((balanceUnevenDays bs).flatten : Multiset POI) = (bs.flatten : Multiset POI) := by
  unfold balanceUnevenDays
  split
  · exact ⟨rfl, rfl⟩
  · have hinv := foldl_invariant
      (buStep ((bs.map dayTime).foldl (· + ·) 0 / (bs.length : Rat)))
      (fun (st : List (List POI) × List Rat) =>
        st.1.length = bs.length ∧ st.2.length = bs.length ∧
          (st.1.flatten : Multiset POI) = (bs.flatten : Multiset POI))
      (List.range bs.length) (bs, bs.map dayTime)
      ⟨rfl, by simp, rfl⟩
      (fun st i _ hst => buStep_preserves _ bs.length _ st i hst)
    exact ⟨hinv.1, hinv.2.2⟩

/-- For a target of at least one day, `balanceDays` succeeds, produces
exactly `target` buckets and preserves the flattened POI multiset. -/
theorem balanceDays_spec (bs : List (List POI)) (target : Int) (h : 1 ≤ target) :
    ∃ out, balanceDays bs target = .ok out ∧ (out.length : Int) = target ∧
      (out.flatten : Multiset POI) = (bs.flatten : Multiset POI) := by
  unfold balanceDays mergeLoop
  obtain ⟨mid, hok, hlen, hm⟩ :=
    mergeGo_spec ((padTo bs target).length + 1) (padTo bs target) target h
      (padTo_length_ge bs target) (by omega)
  rw [hok]
  refine ⟨balanceUnevenDays mid, rfl, ?_, ?_⟩

  · rw [(balanceUnevenDays_spec mid).1]
    exact hlen
  · rw [(balanceUnevenDays_spec mid).2, hm, padTo_flatten]

/-- Whenever `balanceDays` succeeds it preserves the flattened multiset. -/
theorem balanceDays_ok_flatten (bs : List (List POI)) (target : Int)
    (out : List (List POI)) (h : balanceDays bs target = .ok out) :
    (out.flatten : Multiset POI) = (bs.flatten : Multiset POI) := by
  unfold balanceDays mergeLoop at h
  cases hm : mergeGo target ((padTo bs target).length + 1) (padTo bs target) with
  | error e => rw [hm] at h; exact absurd h (by simp)
  | ok mid =>
    rw [hm] at h
    cases h
    rw [(balanceUnevenDays_spec mid).2, mergeGo_ok_flatten _ _ _ _ hm, padTo_flatten]

/-- For at least one requested day, `organizeByDays` succeeds, yields exactly
`days` buckets, and the flattened buckets are a permutation (as a multiset)
of the annotated tour. -/
theorem organizeByDays_spec (tour : List POI) (days : Int) (tripType : String)
    (h : 1 ≤ days) :
    ∃ out, organizeByDays tour days tripType = .ok out ∧
      (out.length : Int) = days ∧
      (out.flatten : Multiset POI) = ((tour.map (annotatePOI tripType) : List POI) : Multiset POI) := by
  unfold organizeByDays
  split
  · rename_i hemp
    rw [if_pos (by omega : (0:Int) ≤ days)]
    refine ⟨_, rfl, ?_, ?_⟩
    · simp only [List.length_replicate]
      omega
    · rw [flatten_replicate_nil, List.isEmpty_iff.mp hemp]
      rfl
  · obtain ⟨out, hok, h1, h2⟩ :=
      balanceDays_spec
        (firstPass tripType (calculateTotalTime tour / (days : Rat)) tour) days h
    exact ⟨out, hok, h1, by rw [h2, firstPass_flatten]⟩

/-- Whenever `organizeByDays` succeeds, the flattened buckets are a multiset
permutation of the annotated tour (no hypothesis on `days`). -/
theorem organizeByDays_ok_flatten (tour : List POI) (days : Int)
    (tripType : String) (out : List (List POI))
    (h : organizeByDays tour days tripType = .ok out) :
    (out.flatten : Multiset POI)
      = ((tour.map (annotatePOI tripType) : List POI) : Multiset POI) := by
  unfold organizeByDays at h
  split at h
  · rename_i hemp
    split at h
    · cases h
      rw [flatten_replicate_nil, List.isEmpty_iff.mp hemp]
      rfl
    · exact absurd h (by simp)
  · rw [balanceDays_ok_flatten _ _ _ h, firstPass_flatten]

/-- The node keys of a built graph are the POI ids, in order. -/
theorem buildGraph_keys (dist : Loc → Loc → Rat) (pois : List POI) :
    (buildGraph dist pois).nodes.map Prod.fst = pois.map POI.id := by
  unfold buildGraph
  rw [List.map_map]
  rfl

/-- The node values of a built graph are the POIs, in order. -/
theorem buildGraph_values (dist : Loc → Loc → Rat) (pois : List POI) :
    (buildGraph dist pois).nodes.map Prod.snd = pois := by
  unfold buildGraph
  rw [List.map_map]
  exact List.map_id pois

/-- Lookup in an association list built by mapping ids to values: the first
POI whose id is the key provides the value. -/
theorem find?_assoc_map {α : Type _} (pois : List POI) (k : String) (f : POI → α)
    (hk : k ∈ pois.map POI.id) :
    ∃ p1, p1 ∈ pois ∧ p1.id = k ∧
      (pois.map (fun p => (p.id, f p))).find? (fun kv => kv.1 = k) = some (k, f p1) := by
  induction pois with
  | nil => simp at hk
  | cons q rest ih =>
    by_cases hq : q.id = k
    · refine ⟨q, List.mem_cons_self q rest, hq, ?_⟩
      rw [List.map_cons, List.find?_cons_of_pos _ (by simp [hq])]
      rw [hq]
    · have hk2 : k = q.id ∨ ∃ a ∈ rest, a.id = k := by simpa using hk
      have hk' : k ∈ rest.map POI.id := by
        rcases hk2 with h1 | ⟨a, ha, hae⟩
        · exact absurd h1.symm hq
        · exact List.mem_map.mpr ⟨a, ha, hae⟩
      obtain ⟨p1, hp1, hid, hfind⟩ := ih hk'
      refine ⟨p1, List.mem_cons_of_mem _ hp1, hid, ?_⟩
      rw [List.map_cons, List.find?_cons_of_neg _ (by simp [hq])]
      exact hfind

/-- A key that is some POI's id resolves to a POI with that id. -/
theorem getNode_some_of_mem (dist : Loc → Loc → Rat) (pois : List POI) (k : String)
    (hk : k ∈ pois.map POI.id) :
    ∃ p, (buildGraph dist pois).getNode k = some p ∧ p.id = k ∧ p ∈ pois := by
  obtain ⟨p1, hp1, hid, hfind⟩ := find?_assoc_map pois k (fun p => p) hk
  refine ⟨p1, ?_, hid, hp1⟩
  unfold Graph.getNode buildGraph
  dsimp only
  rw [hfind]
  rfl

/-- A successful node lookup returns an input POI carrying the key as id. -/
theorem getNode_mem (dist : Loc → Loc → Rat) (pois : List POI) (k : String) (p : POI)
    (h : (buildGraph dist pois).getNode k = some p) : p.id = k ∧ p ∈ pois := by
  unfold Graph.getNode buildGraph at h
  dsimp only at h
  obtain ⟨kv, hfind, hsnd⟩ := Option.map_eq_some'.mp h
  have hmem := List.mem_of_find?_eq_some hfind
  have hpred := List.find?_some hfind
  rcases List.mem_map.mp hmem with ⟨q, hq, hqe⟩
  have h1 : kv.1 = q.id := by rw [← hqe]
  have h2 : kv.2 = q := by rw [← hqe]
  have h3 : kv.1 = k := by simpa using hpred
  constructor
  · rw [← hsnd, h2, ← h1, h3]
  · rw [← hsnd, h2]
    exact hq

/-- The adjacency list of a present key is the full edge fan built by
`buildGraph` for the first POI carrying that id. -/
theorem adjOf_buildGraph (dist : Loc → Loc → Rat) (pois : List POI) (k : String)
    (hk : k ∈ pois.map POI.id) :
    ∃ p1, p1 ∈ pois ∧ p1.id = k ∧
      (buildGraph dist pois).adjOf k =
        (pois.filter (fun p2 => p1.id ≠ p2.id)).map (fun p2 => mkEdgeQ dist p1 p2) := by
  obtain ⟨p1, hp1, hid, hfind⟩ := find?_assoc_map pois k
    (fun p1 => (pois.filter (fun p2 => p1.id ≠ p2.id)).map (fun p2 => mkEdgeQ dist p1 p2)) hk
  refine ⟨p1, hp1, hid, ?_⟩
  unfold Graph.adjOf buildGraph
  dsimp only
  rw [hfind]
  rfl

/-- Annotating the last tour element does not change the id sequence. -/
theorem annotateLast_map_id (tour : List POI) (t : Rat) (s : Option Rat) :
    (annotateLast tour t s).map POI.id = tour.map POI.id := by
  induction tour with
  | nil => rfl
  | cons p rest ih =>
    cases rest with
    | nil => rfl
    | cons q rest2 =>
      show (p :: annotateLast (q :: rest2) t s).map POI.id = _
      simp only [List.map_cons]
      rw [show (annotateLast (q :: rest2) t s).map POI.id = (q :: rest2).map POI.id from ih]
      simp

/-- Annotating the last tour element does not change any non-annotation
field of any element. -/
theorem annotateLast_map_core (tour : List POI) (t : Rat) (s : Option Rat) :
    (annotateLast tour t s).map coreFields = tour.map coreFields := by
  induction tour with
  | nil => rfl
  | cons p rest ih =>
    cases rest with
    | nil => rfl
    | cons q rest2 =>
      show (p :: annotateLast (q :: rest2) t s).map coreFields = _
      simp only [List.map_cons]
      rw [show (annotateLast (q :: rest2) t s).map coreFields = (q :: rest2).map coreFields from ih]
      simp

/-- Soundness of the best-next-node fold: whatever candidate it settles on is
unvisited and denotes an existing node. -/
theorem nextNodeStep_sound (g : Graph) (visited : List String) (tripType : String)
    (w : Weights) (l : List Edge) (acc : Option (String × Rat × Rat))
    (hacc : ∀ x : String × Rat × Rat, acc = some x →
      visited.contains x.1 = false ∧ (g.getNode x.1).isSome) :
    ∀ x : String × Rat × Rat, l.foldl (nextNodeStep g visited tripType w) acc = some x →
      visited.contains x.1 = false ∧ (g.getNode x.1).isSome := by
  refine foldl_invariant (nextNodeStep g visited tripType w)
    (fun acc => ∀ x : String × Rat × Rat, acc = some x →
      visited.contains x.1 = false ∧ (g.getNode x.1).isSome) l acc hacc ?_
  intro acc e _ hP
  unfold nextNodeStep
  split
  · exact hP
  · rename_i hcont
    split
    · exact hP
    · rename_i poi hpoi
      dsimp only
      rcases acc with _ | ⟨bn, bs, bt⟩
      · rintro x hx
        cases hx
        exact ⟨Bool.of_not_eq_true hcont, by rw [hpoi]; rfl⟩
      · show ∀ x, (if _ > bs then some (e.nodeId, _, e.travelTime) else some (bn, bs, bt)) = some x → _
        split
        · rintro x hx
          cases hx
          exact ⟨Bool.of_not_eq_true hcont, by rw [hpoi]; rfl⟩
        · exact hP

/-- Progress of the best-next-node fold: if the accumulator is already set or
the edge list still contains an unvisited existing node, the fold does not
return `none`. -/
theorem nextNodeStep_progress (g : Graph) (visited : List String) (tripType : String)
    (w : Weights) :
    ∀ (l : List Edge) (acc : Option (String × Rat × Rat)),
      (acc ≠ none ∨ ∃ e ∈ l, visited.contains e.nodeId = false ∧ (g.getNode e.nodeId).isSome) →
      l.foldl (nextNodeStep g visited tripType w) acc ≠ none := by
  have hkeep : ∀ (acc : Option (String × Rat × Rat)) (e : Edge),
      acc ≠ none → nextNodeStep g visited tripType w acc e ≠ none := by
    intro acc e h
    unfold nextNodeStep
    split
    · exact h
    · split
      · exact h
      · dsimp only
        rcases acc with _ | ⟨bn, bs, bt⟩
        · simp
        · show (if _ > bs then some (e.nodeId, _, e.travelTime) else some (bn, bs, bt)) ≠ none
          split <;> simp
  have hfire : ∀ (acc : Option (String × Rat × Rat)) (e : Edge),
      visited.contains e.nodeId = false → (g.getNode e.nodeId).isSome →
      nextNodeStep g visited tripType w acc e ≠ none := by
    intro acc e hc hs
    unfold nextNodeStep
    rw [if_neg (by rw [hc]; simp)]
    rcases hg : g.getNode e.nodeId with _ | poi
    · rw [hg] at hs
      simp at hs
    · dsimp only
      rcases acc with _ | ⟨bn, bs, bt⟩
      · simp
      · show (if _ > bs then some (e.nodeId, _, e.travelTime) else some (bn, bs, bt)) ≠ none
        split <;> simp
  intro l
  induction l with
  | nil =>
    intro acc h
    rcases h with h | ⟨e, he, _⟩
    · exact h
    · exact absurd he (List.not_mem_nil e)
  | cons e l ih =>
    intro acc h
    rw [List.foldl_cons]
    apply ih
    rcases h with h | ⟨e', he', hc, hs⟩
    · exact Or.inl (hkeep acc e h)
    · rcases List.mem_cons.mp he' with rfl | hmem
      · exact Or.inl (hfire acc e' hc hs)
      · exact Or.inr ⟨e', hmem, hc, hs⟩

/-- On a graph built from `pois`, whenever some unvisited other node exists,
`findBestNextNode` selects an unvisited existing node. -/
theorem findBestNextNode_spec (dist : Loc → Loc → Rat) (pois : List POI)
    (current : String) (visited : List String) (tripType : String)
    (hcur : current ∈ pois.map POI.id)
    (hex : ∃ k, k ∈ pois.map POI.id ∧ k ∉ visited ∧ k ≠ current) :
    ∃ m pm, (findBestNextNode (buildGraph dist pois) current visited tripType).nextNode
        = some m ∧
      m ∉ visited ∧ (buildGraph dist pois).getNode m = some pm ∧ pm.id = m ∧ pm ∈ pois := by
  obtain ⟨p1, _, hid1, hadj⟩ := adjOf_buildGraph dist pois current hcur
  obtain ⟨k, hk, hkv, hkc⟩ := hex
  obtain ⟨pk, hpk, hpkid⟩ := List.mem_map.mp hk
  have hfil : pk ∈ pois.filter (fun p2 => p1.id ≠ p2.id) := by
    refine List.mem_filter.mpr ⟨hpk, ?_⟩
    simp only [decide_eq_true_eq]
    rw [hid1, hpkid]
    exact fun h => hkc h.symm
  have hedge : mkEdgeQ dist p1 pk
      ∈ (pois.filter (fun p2 => p1.id ≠ p2.id)).map (fun p2 => mkEdgeQ dist p1 p2) :=
    List.mem_map_of_mem _ hfil
  obtain ⟨pkn, hpkn, _, _⟩ := getNode_some_of_mem dist pois k hk
  have hcand : visited.contains (mkEdgeQ dist p1 pk).nodeId = false ∧
      ((buildGraph dist pois).getNode (mkEdgeQ dist p1 pk).nodeId).isSome := by
    constructor
    · show visited.contains pk.id = false
      rw [hpkid]
      simpa using hkv
    · show ((buildGraph dist pois).getNode pk.id).isSome
      rw [hpkid, hpkn]
      rfl
  unfold findBestNextNode
  dsimp only
  rcases hfold : ((buildGraph dist pois).adjOf current).foldl
      (nextNodeStep (buildGraph dist pois) visited tripType (getTripTypeWeights tripType))
      none with _ | ⟨bn, bs, bt⟩
  · exfalso
    refine nextNodeStep_progress (buildGraph dist pois) visited tripType
      (getTripTypeWeights tripType) ((buildGraph dist pois).adjOf current) none
      (Or.inr ?_) hfold
    rw [hadj]
    exact ⟨mkEdgeQ dist p1 pk, hedge, hcand⟩
  · have hsound := nextNodeStep_sound (buildGraph dist pois) visited tripType
      (getTripTypeWeights tripType) ((buildGraph dist pois).adjOf current) none
      (by rintro x hx; cases hx) (bn, bs, bt) hfold
    obtain ⟨pm, hpm⟩ := Option.isSome_iff_exists.mp hsound.2
    obtain ⟨hpmid, hpmmem⟩ := getNode_mem dist pois bn pm hpm
    refine ⟨bn, pm, ?_, ?_, hpm, hpmid, hpmmem⟩
    · rfl
    · intro hmem

      rw [show visited.contains bn = true by simpa using hmem] at hsound
      exact absurd hsound.1 (by simp)

/-- Invariant of the nearest-neighbor loop: starting from a duplicate-free
visited set that matches the tour's id sequence and contains the current
node, with enough fuel, the loop ends with a duplicate-free id sequence
drawn from the POI ids and of full length. -/
theorem nnGo_spec (dist : Loc → Loc → Rat) (pois : List POI) (tripType : String)
    (hnd : (pois.map POI.id).Nodup) :
    ∀ (fuel : Nat) (visited : List String) (tour : List POI) (current : String),
      visited.Nodup → (∀ v ∈ visited, v ∈ pois.map POI.id) →
      tour.map POI.id = visited → current ∈ visited →
      pois.length ≤ fuel + visited.length →
      ((nnGo (buildGraph dist pois) tripType pois.length fuel visited tour current).map
          POI.id).Nodup ∧
      (∀ v ∈ (nnGo (buildGraph dist pois) tripType pois.length fuel visited tour
          current).map POI.id, v ∈ pois.map POI.id) ∧
      (nnGo (buildGraph dist pois) tripType pois.length fuel visited tour current).length
        = pois.length := by
  intro fuel
  induction fuel with
  | zero =>
    intro visited tour current hvn hvs htv _ hb
    rw [nnGo]
    have hsub : visited ⊆ pois.map POI.id := fun v hv => hvs v hv
    have hle : visited.length ≤ (pois.map POI.id).length :=
      (List.Nodup.subperm hvn hsub).length_le
    rw [List.length_map] at hle
    refine ⟨htv ▸ hvn, fun v hv => hvs v (htv ▸ hv), ?_⟩
    have : tour.length = visited.length := by
      rw [← htv, List.length_map]
    omega
  | succ fuel ih =>
    intro visited tour current hvn hvs htv hcv hb
    rw [nnGo]
    split
    case isFalse hlt =>
      have hsub : visited ⊆ pois.map POI.id := fun v hv => hvs v hv
      have hle : visited.length ≤ (pois.map POI.id).length :=
        (List.Nodup.subperm hvn hsub).length_le
      rw [List.length_map] at hle
      refine ⟨htv ▸ hvn, fun v hv => hvs v (htv ▸ hv), ?_⟩
      have : tour.length = visited.length := by
        rw [← htv, List.length_map]
      omega
    case isTrue hlt =>
      have hex : ∃ k, k ∈ pois.map POI.id ∧ k ∉ visited := by
        by_contra hno
        push_neg at hno
        have hsub : pois.map POI.id ⊆ visited := fun k hk => hno k hk
        have := (List.Nodup.subperm hnd hsub).length_le
        rw [List.length_map] at this
        omega
      obtain ⟨k, hk, hkv⟩ := hex
      have hkc : k ≠ current := fun he => hkv (he ▸ hcv)
      have hcur : current ∈ pois.map POI.id := hvs current hcv
      obtain ⟨m, pm, hfb, hmv, hgn, hmid, hpm⟩ :=
        findBestNextNode_spec dist pois current visited tripType hcur ⟨k, hk, hkv, hkc⟩
      rcases hr : findBestNextNode (buildGraph dist pois) current visited tripType
        with ⟨nn, tv, sc⟩
      rw [hr] at hfb
      dsimp only at hfb
      subst hfb
      dsimp only
      rw [hgn]
      have hmkeys : m ∈ pois.map POI.id := by
        rw [← hmid]
        exact List.mem_map_of_mem POI.id hpm
      apply ih (visited ++ [m]) (annotateLast tour tv sc ++ [pm]) m
      · exact List.nodup_append.mpr ⟨hvn, List.nodup_singleton m,
          fun a ha hb2 => hmv ((List.mem_singleton.mp hb2) ▸ ha)⟩
      · intro v hv
        rcases List.mem_append.mp hv with h1 | h2
        · exact hvs v h1
        · rw [List.mem_singleton.mp h2]
          exact hmkeys
      · rw [List.map_append, annotateLast_map_id, htv]
        simp [hmid]
      · exact List.mem_append_right _ (List.mem_singleton.mpr rfl)
      · rw [List.length_append]
        simp only [List.length_singleton]
        omega

/-- C1: on the graph built from a non-empty POI list with pairwise-distinct
ids, starting from any id present in the graph, `nearestNeighborTour`
returns a tour whose length is the number of graph nodes and in which every
POI id appears exactly once (Hamiltonian coverage). -/
theorem nearestNeighborTour_hamiltonian (dist : Loc → Loc → Rat) (pois : List POI)
    (startId : String) (tripType : String) (hne : pois ≠ [])
    (hnd : (pois.map POI.id).Nodup) (hs : startId ∈ pois.map POI.id) :
    ∃ tour, nearestNeighborTour (buildGraph dist pois) (some startId) tripType
        = .ok tour ∧
      tour.length = (buildGraph dist pois).nodes.length ∧
      ∀ s ∈ pois.map POI.id, (tour.map POI.id).count s = 1 := by
  unfold nearestNeighborTour
  rw [show (buildGraph dist pois).nodes.map (fun kv => kv.1) = pois.map POI.id from
    buildGraph_keys dist pois]
  rcases pois with _ | ⟨q, rest⟩
  · exact absurd rfl hne
  · show ∃ tour, (match q.id :: rest.map POI.id with
      | [] => Except.ok []
      | n0 :: _ => _) = Except.ok tour ∧ _
    dsimp only
    have hstart : jsOrStr (some startId) q.id ∈ (q :: rest).map POI.id := by
      unfold jsOrStr
      dsimp only
      split
      · exact List.mem_map_of_mem POI.id (List.mem_cons_self q rest)
      · exact hs
    obtain ⟨sp, hgn, hspid, _⟩ :=
      getNode_some_of_mem dist (q :: rest) (jsOrStr (some startId) q.id) hstart
    rw [hgn]
    dsimp only
    rw [List.length_map]
    have hspec := nnGo_spec dist (q :: rest) tripType hnd
      (q :: rest).length [jsOrStr (some startId) q.id] [sp]
      (jsOrStr (some startId) q.id)
      (List.nodup_singleton _)
      (fun v hv => (List.mem_singleton.mp hv) ▸ hstart)
      (by rw [List.map_singleton, hspid])
      (List.mem_singleton.mpr rfl)
      (by simp)
    obtain ⟨hn1, hn2, hn3⟩ := hspec
    refine ⟨_, rfl, ?_, ?_⟩
    · rw [hn3]
      unfold buildGraph
      simp
    · intro s hsk
      set res := nnGo (buildGraph dist (q :: rest)) tripType (q :: rest).length
        (q :: rest).length [jsOrStr (some startId) q.id] [sp]
        (jsOrStr (some startId) q.id) with hres
      have hsub : res.map POI.id ⊆ (q :: rest).map POI.id := fun v hv => hn2 v hv
      have hsp : List.Subperm (res.map POI.id) ((q :: rest).map POI.id) :=
        List.Nodup.subperm hn1 hsub
      have hperm : (res.map POI.id).Perm ((q :: rest).map POI.id) :=
        List.Subperm.perm_of_length_le hsp (by
          rw [List.length_map, List.length_map, hn3])
      rw [List.Perm.count_eq hperm]
      exact List.count_eq_one_of_mem hnd hsk

/-- Witness for `nearestNeighborTour_hamiltonian` on two concrete POIs
starting from "p1". -/
theorem nearestNeighborTour_hamiltonian_witness :
    ∃ tour, nearestNeighborTour (buildGraph demoDist [poiOne, poiTwo]) (some "p1")
        "Historical" = .ok tour ∧
      tour.length = (buildGraph demoDist [poiOne, poiTwo]).nodes.length ∧
      ∀ s ∈ [poiOne, poiTwo].map POI.id, (tour.map POI.id).count s = 1 :=
  nearestNeighborTour_hamiltonian demoDist [poiOne, poiTwo] "p1" "Historical"
    (by decide) (by decide) (by decide)

/-- The selected start node is drawn from the node list. -/
theorem bestStartNode_mem (tripType : String) (n0 : POI) (nodes : List POI)
    (h : n0 ∈ nodes) : (bestStartNode tripType n0 nodes).1 ∈ nodes := by
  unfold bestStartNode
  exact foldl_invariant
    (fun (acc : POI × Rat) node =>
      let score := startScore tripType node
      if score > acc.2 then (node, score) else acc)
    (fun (acc : POI × Rat) => acc.1 ∈ nodes) nodes (n0, 0) h
    (fun acc node hn hacc => by
      dsimp only
      split
      · exact hn
      · exact hacc)

/-- Starting from a present id, the tour constructor cannot fail. -/
theorem nearestNeighborTour_ok (dist : Loc → Loc → Rat) (pois : List POI)
    (startId tripType : String) (hs : startId ∈ pois.map POI.id) :
    ∃ tour, nearestNeighborTour (buildGraph dist pois) (some startId) tripType
      = .ok tour := by
  unfold nearestNeighborTour
  rw [show (buildGraph dist pois).nodes.map (fun kv => kv.1) = pois.map POI.id from
    buildGraph_keys dist pois]
  rcases pois with _ | ⟨q, rest⟩
  · simp at hs
  · rw [List.map_cons]
    dsimp only
    have hstart : jsOrStr (some startId) q.id ∈ (q :: rest).map POI.id := by
      unfold jsOrStr
      dsimp only
      split
      · exact List.mem_map_of_mem POI.id (List.mem_cons_self q rest)
      · exact hs
    obtain ⟨sp, hgn, _, _⟩ :=
      getNode_some_of_mem dist (q :: rest) (jsOrStr (some startId) q.id) hstart
    rw [hgn]
    exact ⟨_, rfl⟩

/-- Every POI of the nearest-neighbor loop's result either was in the tour
already or is a node of the graph; in either case its non-annotation fields
are those of an input POI. -/
theorem nnGo_core (dist : Loc → Loc → Rat) (pois : List POI) (tripType : String)
    (numNodes : Nat) :
    ∀ (fuel : Nat) (visited : List String) (tour : List POI) (current : String),
      (∀ p ∈ tour, coreFields p ∈ pois.map coreFields) →
      ∀ p ∈ nnGo (buildGraph dist pois) tripType numNodes fuel visited tour current,
        coreFields p ∈ pois.map coreFields := by
  have hann : ∀ (tour : List POI) (tv : Rat) (sc : Option Rat),
      (∀ p ∈ tour, coreFields p ∈ pois.map coreFields) →
      ∀ p ∈ annotateLast tour tv sc, coreFields p ∈ pois.map coreFields := by
    intro tour tv sc h p hp
    have h1 : coreFields p ∈ (annotateLast tour tv sc).map coreFields :=
      List.mem_map_of_mem coreFields hp
    rw [annotateLast_map_core] at h1
    obtain ⟨q2, hq2, he⟩ := List.mem_map.mp h1
    rw [← he]
    exact h q2 hq2
  intro fuel
  induction fuel with
  | zero =>
    intro visited tour current h p hp
    rw [nnGo] at hp
    exact h p hp
  | succ fuel ih =>
    intro visited tour current h p hp
    rw [nnGo] at hp
    split at hp
    case isFalse => exact h p hp
    case isTrue =>
      rcases hfb : findBestNextNode (buildGraph dist pois) current visited tripType
        with ⟨nn, tv, sc⟩
      rw [hfb] at hp
      rcases nn with _ | nextNode
      · exact h p hp
      · dsimp only at hp
        rcases hpoi : (buildGraph dist pois).getNode nextNode with _ | poi
        · rw [hpoi] at hp
          exact hann tour tv sc h p hp
        · rw [hpoi] at hp
          refine ih (visited ++ [nextNode]) (annotateLast tour tv sc ++ [poi]) nextNode
            ?_ p hp
          intro p2 hp2
          rcases List.mem_append.mp hp2 with h1 | h2
          · exact hann tour tv sc h p2 h1
          · rw [List.mem_singleton.mp h2]
            exact List.mem_map_of_mem coreFields (getNode_mem dist pois nextNode poi hpoi).2

/-- Every POI of a successfully constructed tour carries the non-annotation
fields of some input POI. -/
theorem nearestNeighborTour_core (dist : Loc → Loc → Rat) (pois : List POI)
    (startId : Option String) (tripType : String) (tour : List POI)
    (h : nearestNeighborTour (buildGraph dist pois) startId tripType = .ok tour) :
    ∀ p ∈ tour, coreFields p ∈ pois.map coreFields := by
  unfold nearestNeighborTour at h
  dsimp only at h
  split at h
  · cases h
    intro p hp
    exact absurd hp (List.not_mem_nil p)
  · split at h
    · exact absurd h (by simp)
    · rename_i sp hgn
      cases h
      refine nnGo_core dist pois tripType _ _ _ [sp] _ ?_
      intro p hp
      rw [List.mem_singleton.mp hp]
      exact List.mem_map_of_mem coreFields (getNode_mem dist pois _ sp hgn).2

/-- C6 amended: the core never raises a distinguishable InvalidArgument
condition: for every POI list (including POIs with non-positive
visitDuration) and every category string (including malformed ones, which
silently fall back to the Historical tables) and every `days ≥ 1`,
`optimizeTrip` returns an itinerary. -/
theorem optimizeTrip_never_invalid_argument (dist : Loc → Loc → Rat)
    (pois : List POI) (days : Int) (tripType : String) (h : 1 ≤ days) :
    (optimizeTrip (buildGraph dist pois) days tripType).isOk = true := by
  unfold optimizeTrip
  rw [show (buildGraph dist pois).nodes.map (fun kv => kv.2) = pois from
    buildGraph_values dist pois]
  rcases pois with _ | ⟨q, rest⟩
  · dsimp only
    rw [if_pos (by omega : (0:Int) ≤ days)]
    rfl
  · dsimp only
    have hbest := bestStartNode_mem tripType q (q :: rest) (List.mem_cons_self q rest)
    have hbid : (bestStartNode tripType q (q :: rest)).1.id ∈ (q :: rest).map POI.id :=
      List.mem_map_of_mem POI.id hbest
    obtain ⟨tour, htour⟩ :=
      nearestNeighborTour_ok dist (q :: rest)
        (bestStartNode tripType q (q :: rest)).1.id tripType hbid
    rw [htour]
    dsimp only
    obtain ⟨bs, hbs, _, _⟩ := organizeByDays_spec tour days "Historical" h
    rw [hbs]
    rfl

/-- Witness for `optimizeTrip_never_invalid_argument`: a POI with negative
visitDuration and a malformed category still yield an itinerary. -/
theorem optimizeTrip_never_invalid_argument_witness :
    (optimizeTrip (buildGraph demoDist [negDurationPoi]) 1 "NotACategory").isOk = true :=
  optimizeTrip_never_invalid_argument demoDist [negDurationPoi] 1 "NotACategory" (by decide)

/-- C9 amended: during one optimization call every POI record of the output
agrees with an input POI on every non-annotation field (id, name,
description, location, visitDuration, rating, relevanceScore); only the
annotation fields travelTimeToNext, nextNodeScore, importance and
timeRequired are written. -/
theorem optimizeTrip_frame_core_fields (dist : Loc → Loc → Rat) (pois : List POI)
    (days : Int) (tripType : String) :
    ∀ p ∈ outputPOIs (optimizeTrip (buildGraph dist pois) days tripType),
      coreFields p ∈ pois.map coreFields := by
  unfold optimizeTrip
  rw [show (buildGraph dist pois).nodes.map (fun kv => kv.2) = pois from
    buildGraph_values dist pois]
  rcases pois with _ | ⟨q, rest⟩
  · dsimp only
    by_cases h0 : (0:Int) ≤ days
    · rw [if_pos h0]
      intro p hp
      have hp2 : p ∈ (List.replicate days.toNat ([] : List POI)).flatten := hp
      rw [flatten_replicate_nil] at hp2
      exact absurd hp2 (List.not_mem_nil p)
    · rw [if_neg h0]
      intro p hp
      exact absurd hp (List.not_mem_nil p)
  · dsimp only
    rcases htour : nearestNeighborTour (buildGraph dist (q :: rest))
        (some (bestStartNode tripType q (q :: rest)).1.id) tripType with e | tour
    · intro p hp
      exact absurd hp (List.not_mem_nil p)
    · dsimp only
      rcases horg : organizeByDays tour days "Historical" with e | bs
      · intro p hp
        exact absurd hp (List.not_mem_nil p)
      · intro p hp
        have hmem : p ∈ bs.flatten := hp
        have hflat := organizeByDays_ok_flatten tour days "Historical" bs horg
        have hmap : p ∈ tour.map (annotatePOI "Historical") := by
          have h1 : p ∈ (bs.flatten : Multiset POI) := Multiset.mem_coe.mpr hmem
          rw [hflat] at h1
          exact Multiset.mem_coe.mp h1
        obtain ⟨t0, ht0, he⟩ := List.mem_map.mp hmap
        rw [← he, annotatePOI_coreFields]
        exact nearestNeighborTour_core dist (q :: rest) _ tripType tour htour t0 ht0

/-- Witness for `optimizeTrip_frame_core_fields` at a concrete one-POI
optimization: the single output POI agrees with the input on all
non-annotation fields. -/
theorem optimizeTrip_frame_core_fields_witness :
    coreFields (annotatePOI "Historical" poiOne) ∈ [poiOne].map coreFields :=
  optimizeTrip_frame_core_fields demoDist [poiOne] 1 "Historical"
    (annotatePOI "Historical" poiOne) (by decide)

namespace Geo

/-- The haversine intermediate value is symmetric in its two points. -/
theorem haversineA_comm (p1 p2 : Point) : haversineA p1 p2 = haversineA p2 p1 := by
  unfold haversineA
  simp only
  rw [(by ring : (p2.lat - p1.lat) * Real.pi / 180 / 2
        = -((p1.lat - p2.lat) * Real.pi / 180 / 2)),
      (by ring : (p2.lng - p1.lng) * Real.pi / 180 / 2
        = -((p1.lng - p2.lng) * Real.pi / 180 / 2)),
      Real.sin_neg, Real.sin_neg]
  ring

/-- Symmetry of the embedded `calculateDistance`, including the degraded
fallback cases. -/
theorem calculateDistance_comm (a b : Option Point) :
    calculateDistance a b = calculateDistance b a := by
  match a, b with
  | none, none => rfl
  | none, some _ => rfl
  | some _, none => rfl
  | some p1, some p2 =>
    show 6371 * (2 * atan2 (Real.sqrt (haversineA p1 p2)) (Real.sqrt (1 - haversineA p1 p2)))
      = 6371 * (2 * atan2 (Real.sqrt (haversineA p2 p1)) (Real.sqrt (1 - haversineA p2 p1)))
    rw [haversineA_comm]

end Geo

/-- C8: the haversine `calculateDistance` is symmetric in its two arguments,
and consequently the forward and reverse edge records built by `buildGraph`
(`mkEdgeR p q` and `mkEdgeR q p`, see `buildGraphR`) carry equal distance and
equal travel time. -/
theorem calculateDistance_and_edges_symmetric :
    (∀ a b : Option Geo.Point, Geo.calculateDistance a b = Geo.calculateDistance b a) ∧
    (∀ p q : Geo.GeoPOI,
      (Geo.mkEdgeR p q).distance = (Geo.mkEdgeR q p).distance ∧
      (Geo.mkEdgeR p q).travelTime = (Geo.mkEdgeR q p).travelTime) := by
  refine ⟨Geo.calculateDistance_comm, fun p q => ?_⟩
  constructor
  · show Geo.calculateDistance p.location q.location
      = Geo.calculateDistance q.location p.location
    exact Geo.calculateDistance_comm _ _
  · show Geo.calculateTravelTime p.location q.location 30
      = Geo.calculateTravelTime q.location p.location 30
    unfold Geo.calculateTravelTime
    rw [Geo.calculateDistance_comm]

/-- C10: a POI whose rating is absent (or unparseable) is not rejected and
its rating is not taken as 0: the shared default `parseFloat(rating) || 4.0`
yields 4, so the next-node score, the start-node score and the partition
importance all use rating 4, for every trip category and weight profile. -/
theorem missing_rating_defaults_to_four (poi : POI) (tripType : String)
    (weights : Weights) (t : Rat) (h : poi.rating = none) :
    ratingOrDefault poi.rating = 4 ∧
    nextNodeScoreOf weights t poi tripType
      = weights.travelTime * (1 / (1 + t))
        + weights.relevance * (nextNodeRelevance poi tripType / 10)
        + weights.rating * (4 / 5) ∧
    startScore tripType poi
      = (getTripTypeWeights tripType).relevance * (effRelevance poi tripType / 5)
        + (getTripTypeWeights tripType).rating * (4 / 5) ∧
    (annotatePOI tripType poi).importance
      = some (effRelevance poi tripType * 0.7 + 4 * 0.3) := by
  have h4 : ratingOrDefault poi.rating = 4 := by
    unfold ratingOrDefault jsOr
    rw [h]
  refine ⟨h4, ?_, ?_, ?_⟩
  · unfold nextNodeScoreOf
    rw [h4]
  · unfold startScore
    rw [h4]
  · unfold annotatePOI
    rw [h4]

/-- Witness for `missing_rating_defaults_to_four` at a concrete POI with an
absent rating, Historical weights and travel time 1. -/
theorem missing_rating_defaults_to_four_witness :
    ratingOrDefault noRatingPoi.rating = 4 ∧
    nextNodeScoreOf (getTripTypeWeights "Historical") 1 noRatingPoi "Historical"
      = (getTripTypeWeights "Historical").travelTime * (1 / (1 + 1))
        + (getTripTypeWeights "Historical").relevance
          * (nextNodeRelevance noRatingPoi "Historical" / 10)
        + (getTripTypeWeights "Historical").rating * (4 / 5) ∧
    startScore "Historical" noRatingPoi
      = (getTripTypeWeights "Historical").relevance
          * (effRelevance noRatingPoi "Historical" / 5)
        + (getTripTypeWeights "Historical").rating * (4 / 5) ∧
    (annotatePOI "Historical" noRatingPoi).importance
      = some (effRelevance noRatingPoi "Historical" * 0.7 + 4 * 0.3) :=
  missing_rating_defaults_to_four noRatingPoi "Historical"
    (getTripTypeWeights "Historical") 1 rfl

/-- C7 counterexample: a precomputed `relevanceScore` of 0 is falsy in JS, so
both relevance reads fall through to the keyword scorer instead of using the
value 0 verbatim: for a POI named "historic fort" the scorer returns 5. -/
theorem relevance_zero_invokes_scorer_cex :
    zeroRelPoi.relevanceScore = some 0 ∧
    effRelevance zeroRelPoi "Historical" = 5 ∧
    nextNodeRelevance zeroRelPoi "Historical" = 5 ∧
    calculatePOIRelevance zeroRelPoi "Historical" = 5 := by decide

/-- C7 amended: a precomputed `relevanceScore` that is present and nonzero is
used verbatim by both the tour constructor's relevance read
(`nextNodeRelevance`, optimizer.js:338-341) and the `relevanceScore ||
calculatePOIRelevance` read of start-node selection and partitioning
(`effRelevance`); the keyword scorer result is not consulted. -/
theorem nonzero_relevance_used_verbatim (poi : POI) (tripType : String) (r : Rat)
    (h1 : poi.relevanceScore = some r) (h2 : r ≠ 0) :
    effRelevance poi tripType = r ∧ nextNodeRelevance poi tripType = r := by
  constructor
  · unfold effRelevance jsOr
    rw [h1]
    simp [h2]
  · unfold nextNodeRelevance truthy jsOr
    rw [h1]
    simp [h2]

/-- Witness for `nonzero_relevance_used_verbatim` at a concrete POI carrying
the precomputed relevance 5/2. -/
theorem nonzero_relevance_used_verbatim_witness :
    effRelevance someRelPoi "Adventure" = 5/2
      ∧ nextNodeRelevance someRelPoi "Adventure" = 5/2 :=
  nonzero_relevance_used_verbatim someRelPoi "Adventure" (5/2) rfl (by decide)

/-- C4 (code bug at optimizer.js:607): `optimizeTrip` does not forward
`tripType` to `organizeByDays`, so for an Adventure request the partition
step computes the importance of a POI without precomputed relevance against
the Historical keyword table (relevance 1) instead of the Adventure table
(relevance 7): the recorded importance is 1*0.7 + 4*0.3, not 7*0.7 + 4*0.3. -/
theorem organizeByDays_called_without_category :
    (outputPOIs (optimizeTrip (buildGraph demoDist [advPoi]) 1 "Adventure")).map
        (fun p => p.importance)
      = [some (calculatePOIRelevance advPoi "Historical" * 0.7 + 4 * 0.3)] ∧
    calculatePOIRelevance advPoi "Historical" = 1 ∧
    calculatePOIRelevance advPoi "Adventure" = 7 ∧
    ((1 : Rat) * 0.7 + 4 * 0.3) ≠ ((7 : Rat) * 0.7 + 4 * 0.3) := by decide

/-- C5 (code bug at optimizer.js:577): on an empty POI set `optimizeTrip`
returns the bare `Array(days).fill([])` of empty buckets, not the
`{ dailyItineraries, metadata }` shape of the non-empty case that its own
callers (tripController.js:63, optimizerTest.js:79) destructure. -/
theorem optimizeTrip_empty_returns_bare_array :
    optimizeTrip (buildGraph demoDist []) 2 "Historical"
      = .ok (OptimizeResult.bare [[], []]) := by decide

/-- C6 counterexample: the core performs no fail-fast validation: a POI with
`visitDuration = -1 ≤ 0` (and even a category outside the closed set) is
processed without any InvalidArgument condition and an itinerary is
returned. -/
theorem optimizeTrip_accepts_nonpositive_duration_cex :
    negDurationPoi.visitDuration ≤ 0 ∧
    (optimizeTrip (buildGraph demoDist [negDurationPoi]) 1 "Historical").isOk = true ∧
    (optimizeTrip (buildGraph demoDist [negDurationPoi]) 1 "NotACategory").isOk = true := by
  decide

/-- C9 counterexample: the tour constructor also writes the undocumented
debugging field `nextNodeScore` (optimizer.js:288): after an optimization of
two fresh POIs some output POI carries a `nextNodeScore`, while every input
POI had none. -/
theorem optimizeTrip_writes_nextNodeScore_cex :
    ((outputPOIs (optimizeTrip (buildGraph demoDist [poiOne, poiTwo]) 1 "Historical")).map
        (fun p => p.nextNodeScore)).any (fun s => s.isSome) = true ∧
    (([poiOne, poiTwo]).map (fun p => p.nextNodeScore)).all (fun s => s.isNone) = true := by
  decide

/-- C3 counterexample: after balancing, the day buckets of `demoTour` are
`[[D], [B, C, A]]`: the concatenation D, B, C, A does not reproduce the tour
order A, B, C, D, and the bucket [B, C, A] is not a contiguous sub-sequence
of the tour. -/
theorem organizeByDays_reorders_tour_cex :
    (organizeByDays demoTour 2 "Historical").map (fun bs => bs.map (fun d => d.map POI.id))
      = .ok [["D"], ["B", "C", "A"]] ∧
    demoTour.map POI.id = ["A", "B", "C", "D"] ∧
    (organizeByDays demoTour 2 "Historical").map (fun bs => bs.flatten.map POI.id)
      ≠ .ok (demoTour.map POI.id) := by decide

/-- C3 amended: each day bucket produced by the first-pass partition of
`organizeByDays` is a contiguous slice of the tour, and the in-order
concatenation of the first-pass buckets reproduces the (annotated) tour
exactly; only the later balancing passes break this (see the
counterexample). -/
theorem firstPass_concat_eq_tour (tripType : String) (avgTimePerDay : Rat)
    (tour : List POI) :
    (firstPass tripType avgTimePerDay tour).flatten = tour.map (annotatePOI tripType) :=
  firstPass_flatten tripType avgTimePerDay tour

/-- C2: for every tour and every integer `days ≥ 1`, the day-partition step
followed by the balancing steps succeeds and yields exactly `days` buckets,
and the multiset union of the POIs of all buckets equals the multiset of the
(annotated-in-place) tour POIs — in particular the multiset of POI ids is
exactly that of the tour: no POI is lost or duplicated. -/
theorem organizeByDays_bucket_count_and_multiset (tour : List POI) (days : Int)
    (tripType : String) (h : 1 ≤ days) :
    ∃ buckets, organizeByDays tour days tripType = .ok buckets ∧
      (buckets.length : Int) = days ∧
      buckets.flatten.Perm (tour.map (annotatePOI tripType)) ∧
      (buckets.flatten.map POI.id).Perm (tour.map POI.id) := by
  obtain ⟨out, hok, hlen, hm⟩ := organizeByDays_spec tour days tripType h
  have hperm : out.flatten.Perm (tour.map (annotatePOI tripType)) :=
    Multiset.coe_eq_coe.mp hm
  refine ⟨out, hok, hlen, hperm, ?_⟩
  have hmap := hperm.map POI.id
  rw [List.map_map] at hmap
  have hcomp : tour.map (POI.id ∘ annotatePOI tripType) = tour.map POI.id :=
    List.map_congr_left (fun p _ => rfl)
  rw [hcomp] at hmap
  exact hmap

/-- Witness for `organizeByDays_bucket_count_and_multiset` on a concrete
two-POI tour and two days. -/
theorem organizeByDays_bucket_count_and_multiset_witness :
    ∃ buckets, organizeByDays [poiOne, poiTwo] 2 "Historical" = .ok buckets ∧
      (buckets.length : Int) = 2 ∧
      buckets.flatten.Perm ([poiOne, poiTwo].map (annotatePOI "Historical")) ∧
      (buckets.flatten.map POI.id).Perm ([poiOne, poiTwo].map POI.id) :=
  organizeByDays_bucket_count_and_multiset [poiOne, poiTwo] 2 "Historical" (by decide)

end TripPlanner
